import Mathlib

/-!
Shallow embedding of the gmail-mcp server (src/index.ts): the message
normalizer `parseMessage`, the three tool handlers of the
CallToolRequestSchema dispatcher, and the helper pipelines they use
(base64 decode/encode, encodeURIComponent, the raw-message builder of
sendEmail).  Machine-level JS details that the handlers observe are kept:
`||` falsiness of empty strings, truthiness of empty arrays, template
interpolation of `undefined`, negative array indexing yielding
`undefined`, and the thrown TypeError on reading `.id` of `undefined`.
-/

namespace GmailMcp

/-- JS coalescing `errorData.error?.message || statusText`: an absent or
empty provider message falls back to the HTTP status text. -/
def jsOr (em : Option String) (st : String) : String :=
  match em with
  | some m => if m = "" then st else m
  | none => st

/-- Uppercase hex digit of a value below 16, as percent-encoding produces. -/
def hexDigit (n : Nat) : Char :=
  if n < 10 then Char.ofNat (48 + n) else Char.ofNat (55 + n)

/-- UTF-8 byte sequence of one code point. -/
def utf8Bytes (c : Char) : List Nat :=
  let n := c.toNat
  if n < 128 then [n]
  else if n < 2048 then [192 + n / 64, 128 + n % 64]
  else if n < 65536 then [224 + n / 4096, 128 + (n / 64) % 64, 128 + n % 64]
  else [240 + n / 262144, 128 + (n / 4096) % 64, 128 + (n / 64) % 64, 128 + n % 64]

/-- UTF-8 bytes of a string: the bytes `Buffer.from(s)` holds. -/
def strBytes (s : String) : List Nat := s.data.flatMap utf8Bytes

/-- Bytes viewed as a string, one character per byte (faithful on ASCII,
which is all the claims exercise; a multi-byte sequence stays bytewise). -/
def bytesToString (bs : List Nat) : String := String.mk (bs.map Char.ofNat)

/-- Character of one six-bit value in the standard base64 alphabet. -/
def sextetChar (n : Nat) : Char :=
  if n < 26 then Char.ofNat (65 + n)
  else if n < 52 then Char.ofNat (97 + (n - 26))
  else if n < 62 then Char.ofNat (48 + (n - 52))
  else if n = 62 then '+' else '/'

/-- Standard base64 with `=` padding, as `Buffer.toString("base64")`. -/
def encodeBase64 : List Nat → List Char
  | [] => []
  | [a] => [sextetChar (a / 4), sextetChar (a % 4 * 16), '=', '=']
  | [a, b] => [sextetChar (a / 4), sextetChar (a % 4 * 16 + b / 16), sextetChar (b % 16 * 4), '=']
  | a :: b :: c :: rest =>
    sextetChar (a / 4) :: sextetChar (a % 4 * 16 + b / 16)
      :: sextetChar (b % 16 * 4 + c / 64) :: sextetChar (c % 64) :: encodeBase64 rest

/-- Six-bit value of one base64 alphabet character; `none` for padding and
foreign characters, which Node's forgiving decoder skips. -/
def sextetVal (c : Char) : Option Nat :=
  if 65 ≤ c.toNat ∧ c.toNat ≤ 90 then some (c.toNat - 65)
  else if 97 ≤ c.toNat ∧ c.toNat ≤ 122 then some (c.toNat - 97 + 26)
  else if 48 ≤ c.toNat ∧ c.toNat ≤ 57 then some (c.toNat - 48 + 52)
  else if c = '+' then some 62
  else if c = '/' then some 63
  else none

/-- Bytes reassembled from six-bit values; a final group of two or three
values yields the one or two bytes its bits complete. -/
def sextetsToBytes : List Nat → List Nat
  | a :: b :: c :: d :: rest =>
    (a * 4 + b / 16) :: (b % 16 * 16 + c / 4) :: (c % 4 * 64 + d) :: sextetsToBytes rest
  | [a, b] => [a * 4 + b / 16]
  | [a, b, c] => [a * 4 + b / 16, b % 16 * 16 + c / 4]
  | _ => []

/-- Base64 decoding to a byte-per-character string, modelling
`Buffer.from(data, "base64").toString("utf-8")`. -/
def decodeBase64 (s : String) : String :=
  bytesToString (sextetsToBytes (s.data.filterMap sextetVal))

/-- Characters encodeURIComponent leaves unescaped. -/
def uriUnreserved (c : Char) : Bool :=
  c.isAlpha || c.isDigit ||
    ['-', '_', '.', '!', '~', '*', '(', ')', Char.ofNat 39].contains c

/-- Percent-encoding of one byte. -/
def pctByte (b : Nat) : List Char := ['%', hexDigit (b / 16), hexDigit (b % 16)]

/-- JS encodeURIComponent over the UTF-8 bytes of the string. -/
def encodeURIComponent (s : String) : String :=
  String.mk (s.data.flatMap (fun c =>
    if uriUnreserved c then [c] else (utf8Bytes c).flatMap pctByte))

/-- One header object of the provider's message payload. -/
structure Header where
  name : String
  value : String
deriving DecidableEq, Repr

/-- One MIME part: its declared type and its base64 payload `body.data`. -/
structure Part where
  mimeType : String
  data : String
deriving DecidableEq, Repr

/-- The `payload` of a provider message: headers, optional parts array,
and the optional top-level `body.data`. -/
structure Payload where
  headers : List Header
  parts : Option (List Part)
  bodyData : Option String
deriving DecidableEq, Repr

/-- The provider's wire representation of one message. -/
structure RawMessage where
  id : String
  payload : Payload
deriving DecidableEq, Repr

/-- The flat record `parseMessage` produces (`from` is a Lean keyword,
hence the field name `from_`; likewise `to` becomes `toAddr` in Args). -/
structure NormalizedEmail where
  id : String
  subject : Option String
  from_ : Option String
  body : String
deriving DecidableEq, Repr

/-- Lines 258-299: the message normalizer.  Subject and From are the first
headers whose name matches exactly (`===`).  Body: if `payload.parts` is
present (a JS array is truthy even when empty), the first `text/plain`
part decoded, else the first `text/html` part decoded, else empty; if
`parts` is absent, the top-level `body.data` decoded when truthy
(a present empty string is falsy), else empty. -/
def parseMessage (message : RawMessage) : NormalizedEmail :=
  let headers := message.payload.headers
  let subject := (headers.find? (fun h => h.name == "Subject")).map Header.value
  let from_ := (headers.find? (fun h => h.name == "From")).map Header.value
  let body :=
    match message.payload.parts with
    | some parts =>
      match parts.find? (fun p => p.mimeType == "text/plain") with
      | some textPart => decodeBase64 textPart.data
      | none =>
        match parts.find? (fun p => p.mimeType == "text/html") with
        | some htmlPart => decodeBase64 htmlPart.data
        | none => ""
    | none =>
      match message.payload.bodyData with
      | some d => if d = "" then "" else decodeBase64 d
      | none => ""
  ⟨message.id, subject, from_, body⟩

/-- Minimal JSON string escaping (quote and backslash); control characters
never appear in the claims' inputs. -/
def jsonEscape (s : String) : String :=
  String.mk (s.data.flatMap (fun c =>
    if c = '"' then ['\\', '"'] else if c = '\\' then ['\\', '\\'] else [c]))

/-- A JSON string literal. -/
def jsonStr (s : String) : String := "\"" ++ jsonEscape s ++ "\""

/-- JSON.stringify of one normalized email; an undefined subject or sender
is omitted, as JSON.stringify does. -/
def jsonStringifyEmail (e : NormalizedEmail) : String :=
  "\x7b\"id\":" ++ jsonStr e.id
    ++ (match e.subject with | some s => ",\"subject\":" ++ jsonStr s | none => "")
    ++ (match e.from_ with | some s => ",\"from\":" ++ jsonStr s | none => "")
    ++ ",\"body\":" ++ jsonStr e.body ++ "\x7d"

/-- JSON.stringify of the collected email array. -/
def jsonStringifyEmails (es : List NormalizedEmail) : String :=
  "[" ++ String.intercalate "," (es.map jsonStringifyEmail) ++ "]"

/-- The arguments object of a tool call, restricted to the keys any tool
reads or declares; a key the caller did not send is `none`.  `cc` is kept
so that supplying it can be modelled: no schema in the source declares it
and no handler reads it. -/
structure Args where
  query : Option String
  maxResults : Option Nat
  emailIndex : Option Int
  toAddr : Option String
  cc : Option String
  subject : Option String
  body : Option String
deriving DecidableEq, Repr

/-- The empty arguments object, as `request.params.arguments || \x7b\x7d`
yields when arguments is undefined. -/
def emptyArgs : Args := ⟨none, none, none, none, none, none, none⟩

/-- Field names SendEmailSchema declares (lines 22-26): to, subject, body.
There is no cc field; zod strips unknown keys on parse. -/
def sendEmailSchemaKeys : List String := ["to", "subject", "body"]

/-- Simplified stand-in for zod's `z.string().email()` check: exactly one
at-sign with nonempty sides.  No claim depends on its exact extension;
it only gates the sendEmail parse. -/
def emailFormatOk (s : String) : Bool :=
  s.data.count '@' == 1
    && !(s.data.head? == some '@') && !(s.data.getLast? == some '@')

/-- EmailIndexSchema.parse (line 149): requires a numeric `emailIndex`;
a failing parse throws, surfaced by the handler's catch (error texts
abridged from zod's). -/
def parseEmailIndex (args : Option Args) : Except String Int :=
  match args with
  | none => Except.error "Expected object, received undefined"
  | some a =>
    match a.emailIndex with
    | none => Except.error "Required"
    | some i => Except.ok i

/-- SendEmailSchema.parse (line 210): requires `to` (email format),
`subject` and `body`; an unknown key such as `cc` is stripped. -/
def parseSendEmail (args : Option Args) : Except String (String × String × String) :=
  match args with
  | none => Except.error "Expected object, received undefined"
  | some a =>
    match a.toAddr, a.subject, a.body with
    | some t, some s, some b =>
      if emailFormatOk t then Except.ok (t, s, b) else Except.error "Invalid email"
    | _, _, _ => Except.error "Required"

/-- ListEmailsSchema's declared defaults (lines 28-42): query defaults to
"in:inbox", maxResults to 3.  The listEmails handler never parses its
arguments with this schema, so this function is referenced only by the
theorems that compare declared against actual behaviour. -/
def applyListEmailsDefaults (a : Args) : Args :=
  ⟨some (a.query.getD "in:inbox"), some (a.maxResults.getD 3),
    a.emailIndex, a.toAddr, a.cc, a.subject, a.body⟩

/-- JS template interpolation of a possibly-undefined number. -/
def showJsNum (n : Option Nat) : String :=
  match n with
  | some k => toString k
  | none => "undefined"

/-- Lines 90-92: the query string listEmails builds from the raw
destructured arguments.  `query ?` is a JS truthiness test: an absent or
empty query yields the no-q form; maxResults is interpolated even when
undefined. -/
def listEmailsQueryParam (a : Args) : String :=
  match a.query with
  | some q =>
    if q = "" then "?maxResults=" ++ showJsNum a.maxResults
    else "?q=" ++ encodeURIComponent q ++ "&maxResults=" ++ showJsNum a.maxResults
  | none => "?maxResults=" ++ showJsNum a.maxResults

/-- Outcome of one HTTP exchange: the parsed JSON body on success, else
the provider's optional structured `error.message` and the HTTP status
text. -/
inductive HttpResult (α : Type) where
  | ok (a : α)
  | fail (errorMessage : Option String) (statusText : String)
deriving DecidableEq, Repr

/-- Whether the exchange failed. -/
def HttpResult.isFailB {α : Type} : HttpResult α → Bool
  | .ok _ => false
  | .fail _ _ => true

/-- The per-call environment: the credential and the responses the
provider would give to each request this call can make.  The message-list
body is `Option (List id)`: `none` models a response with no `messages`
field. -/
structure Env where
  apiKey : Option String
  listResult : HttpResult (Option (List String))
  fetchResult : String → HttpResult RawMessage
  sendResult : HttpResult Unit

/-- One outbound HTTP request, recorded in issue order. -/
inductive Request where
  | listMessages (queryParam : String)
  | getMessage (id : String)
  | sendMessage (raw : String)
deriving DecidableEq, Repr

/-- One content block of a tool result. -/
structure ContentBlock where
  type : String
  text : String
deriving DecidableEq, Repr

/-- The only block shape the source ever constructs. -/
def textBlock (s : String) : ContentBlock := ⟨"text", s⟩

/-- A tool call's observable outcome: the content blocks returned and the
HTTP requests issued, in order. -/
structure DispatchOut where
  content : List ContentBlock
  requests : List Request
deriving DecidableEq, Repr

/-- A tool call as the dispatcher receives it. -/
structure ToolCallRequest where
  name : String
  arguments : Option Args
deriving DecidableEq, Repr

/-- Lines 116-134: the sequential fetch-and-parse loop of listEmails.  The
first failing fetch returns the error alone; everything pushed so far is
discarded. -/
def fetchLoop (fr : String → HttpResult RawMessage) :
    List String → Except String (List NormalizedEmail)
  | [] => Except.ok []
  | id :: rest =>
    match fr id with
    | .fail em st => Except.error (jsOr em st)
    | .ok m =>
      match fetchLoop fr rest with
      | .error e => Except.error e
      | .ok es => Except.ok (parseMessage m :: es)

/-- Requests the loop issues: one per id up to and including the first
failure. -/
def fetchLoopReqs (fr : String → HttpResult RawMessage) : List String → List Request
  | [] => []
  | id :: rest =>
    Request.getMessage id ::
      (match fr id with
       | .fail _ _ => []
       | .ok _ => fetchLoopReqs fr rest)

/-- Outcome of the by-index id selection of getEmailContent. -/
inductive IndexOutcome where
  | notFound
  | jsError (msg : String)
  | found (id : String)
deriving DecidableEq, Repr

/-- JS array indexing: a negative or out-of-range index reads undefined. -/
def listGetInt (l : List String) (i : Int) : Option String :=
  if i < 0 then none else l[i.toNat]?

/-- Lines 168-176: the not-found guard (`!messageList.messages ||
messages.length < emailIndex`) followed by `messages[emailIndex - 1].id`;
reading `.id` of an undefined element throws a TypeError the handler's
catch converts to text. -/
def indexLookup (msgs : Option (List String)) (i : Int) : IndexOutcome :=
  match msgs with
  | none => IndexOutcome.notFound
  | some l =>
    if (l.length : Int) < i then IndexOutcome.notFound
    else
      match listGetInt l (i - 1) with
      | none => IndexOutcome.jsError "Cannot read properties of undefined (reading 'id')"
      | some id => IndexOutcome.found id

/-- Line 214: the RFC-822-style header block sendEmail builds. -/
def emailHeaders (toAddr subject : String) : String :=
  "To: " ++ toAddr ++ "\r\nSubject: " ++ subject
    ++ "\r\nContent-Type: text/plain; charset=utf-8\r\n\r\n"

/-- Replace one character by another throughout, as `replace(/x/g, "y")`
on a single-character pattern. -/
def replaceChar (c d : Char) (l : List Char) : List Char :=
  l.map (fun x => if x = c then d else x)

/-- Remove every trailing occurrence of a character, as `replace(/=+$/, "")`. -/
def stripTrailing (c : Char) (l : List Char) : List Char :=
  (l.reverse.dropWhile (fun x => x = c)).reverse

/-- Lines 216-220: standard base64 of the block's UTF-8 bytes, then `+`
to `-`, `/` to `_`, and trailing `=` stripped. -/
def base64urlEncode (s : String) : String :=
  String.mk (stripTrailing '='
    (replaceChar '/' '_' (replaceChar '+' '-' (encodeBase64 (strBytes s)))))

/-- The raw message sendEmail POSTs. -/
def buildRaw (toAddr subject body : String) : String :=
  base64urlEncode (emailHeaders toAddr subject ++ body)

/-- Lines 82-142: the listEmails case. -/
def listEmailsHandler (env : Env) (argsOpt : Option Args) : DispatchOut :=
  match env.apiKey with
  | none => ⟨[textBlock "API Key not set."], []⟩
  | some _ =>
    let a := argsOpt.getD emptyArgs
    let qp := listEmailsQueryParam a
    match env.listResult with
    | .fail em st => ⟨[textBlock ("Error: " ++ jsOr em st)], [Request.listMessages qp]⟩
    | .ok none => ⟨[textBlock "No messages found."], [Request.listMessages qp]⟩
    | .ok (some ids) =>
      match fetchLoop env.fetchResult ids with
      | .error e =>
        ⟨[textBlock ("Error: " ++ e)],
          Request.listMessages qp :: fetchLoopReqs env.fetchResult ids⟩
      | .ok emails =>
        ⟨[textBlock (jsonStringifyEmails emails)],
          Request.listMessages qp :: fetchLoopReqs env.fetchResult ids⟩

/-- Lines 143-202: the getEmailContent case. -/
def getEmailContentHandler (env : Env) (argsOpt : Option Args) : DispatchOut :=
  match env.apiKey with
  | none => ⟨[textBlock "API Key not set."], []⟩
  | some _ =>
    match parseEmailIndex argsOpt with
    | .error e => ⟨[textBlock ("Error: " ++ e)], []⟩
    | .ok i =>
      let qp := "?maxResults=" ++ toString i
      match env.listResult with
      | .fail em st => ⟨[textBlock ("Error: " ++ jsOr em st)], [Request.listMessages qp]⟩
      | .ok msgs =>
        match indexLookup msgs i with
        | .notFound =>
          ⟨[textBlock "Email not found at the specified index."], [Request.listMessages qp]⟩
        | .jsError e => ⟨[textBlock ("Error: " ++ e)], [Request.listMessages qp]⟩
        | .found id =>
          match env.fetchResult id with
          | .fail em st =>
            ⟨[textBlock ("Error: " ++ jsOr em st)],
              [Request.listMessages qp, Request.getMessage id]⟩
          | .ok m =>
            ⟨[textBlock (jsonStringifyEmail (parseMessage m))],
              [Request.listMessages qp, Request.getMessage id]⟩

/-- Lines 204-251: the sendEmail case. -/
def sendEmailHandler (env : Env) (argsOpt : Option Args) : DispatchOut :=
  match env.apiKey with
  | none => ⟨[textBlock "API Key not set."], []⟩
  | some _ =>
    match parseSendEmail argsOpt with
    | .error e => ⟨[textBlock ("Error: " ++ e)], []⟩
    | .ok (toAddr, subject, body) =>
      let raw := buildRaw toAddr subject body
      match env.sendResult with
      | .fail em st => ⟨[textBlock ("Error: " ++ jsOr em st)], [Request.sendMessage raw]⟩
      | .ok _ => ⟨[textBlock "Email sent successfully."], [Request.sendMessage raw]⟩

/-- Lines 79-256: the CallToolRequestSchema dispatcher. -/
def dispatch (env : Env) (req : ToolCallRequest) : DispatchOut :=
  if req.name = "listEmails" then listEmailsHandler env req.arguments
  else if req.name = "getEmailContent" then getEmailContentHandler env req.arguments
  else if req.name = "sendEmail" then sendEmailHandler env req.arguments
  else ⟨[textBlock "Unknown tool."], []⟩

/-- First header value by exact, case-sensitive name match over the header
sequence, written from the spec's words: scan in order, first match wins,
absent when none matches. -/
def firstHeaderValue (hs : List Header) (n : String) : Option String :=
  match hs with
  | [] => none
  | h :: t => if h.name = n then some h.value else firstHeaderValue t n

/-- Substring test over character lists. -/
def containsSub (p : List Char) : List Char → Bool
  | [] => p.isEmpty
  | c :: t => p.isPrefixOf (c :: t) || containsSub p t

/-- Arguments carrying just an emailIndex. -/
def mkIndexArgs (i : Int) : Args := ⟨none, none, some i, none, none, none, none⟩

/-- Arguments for sendEmail, with an optional cc key supplied. -/
def mkSendArgs (toAddr : String) (cc : Option String) (subject body : String) : Args :=
  ⟨none, none, none, some toAddr, cc, some subject, some body⟩

/-- A fixture message used by witnesses. -/
def sampleRaw : RawMessage := ⟨"m1", ⟨[], none, none⟩⟩

/-- List.find? with a name test agrees with the spec's first-match scan. -/
theorem find_header_eq (hs : List Header) (n : String) :
    (hs.find? (fun h => h.name == n)).map Header.value = firstHeaderValue hs n := by
  induction hs with
  | nil => rfl
  | cons h t ih =>
    by_cases hn : h.name = n
    · simp [List.find?_cons, firstHeaderValue, hn]
    · simp [List.find?_cons, firstHeaderValue, hn, ih]

/-- C8: the normalizer selects subject and from by a case-sensitive exact
match of the header name against "Subject" and "From", first match wins,
and the field is absent when no header matches. -/
theorem c8_header_selection (m : RawMessage) :
    (parseMessage m).subject = firstHeaderValue m.payload.headers "Subject"
    ∧ (parseMessage m).from_ = firstHeaderValue m.payload.headers "From" := by
  constructor <;> simp [parseMessage, find_header_eq]

/-- C1: whenever payload.parts contains a text/plain part, the normalized
body is the base64-decoded content of the first such part, whatever other
parts are present. -/
theorem c1_plain_part_body (m : RawMessage) (ps : List Part) (p : Part)
    (h1 : m.payload.parts = some ps)
    (h2 : ps.find? (fun q => q.mimeType == "text/plain") = some p) :
    (parseMessage m).body = decodeBase64 p.data := by
  simp [parseMessage, h1, h2]

/-- Witness for C1: a message whose text/html part comes before its
text/plain part still yields the plain part's decoded content ("hi"). -/
theorem c1_plain_part_body_witness :
    (parseMessage ⟨"4", ⟨[], some [⟨"text/html", "SFRNTA=="⟩, ⟨"text/plain", "aGk="⟩], none⟩⟩).body
      = decodeBase64 "aGk="
    ∧ decodeBase64 "aGk=" = "hi" :=
  ⟨c1_plain_part_body ⟨"4", ⟨[], some [⟨"text/html", "SFRNTA=="⟩, ⟨"text/plain", "aGk="⟩], none⟩⟩
      [⟨"text/html", "SFRNTA=="⟩, ⟨"text/plain", "aGk="⟩] ⟨"text/plain", "aGk="⟩ rfl (by decide),
    by decide⟩

/-- C7: with no text/plain part, the body precedence is: a present parts
array yields the first text/html part's decoded content, or empty when no
html part exists either; absent parts with present body.data yields the
decoded top-level data; absent parts and absent data yield empty. -/
theorem c7_body_precedence (m : RawMessage) (ps : List Part) :
    (m.payload.parts = some ps →
      ps.find? (fun p => p.mimeType == "text/plain") = none →
      ((∀ hp, ps.find? (fun p => p.mimeType == "text/html") = some hp →
          (parseMessage m).body = decodeBase64 hp.data)
        ∧ (ps.find? (fun p => p.mimeType == "text/html") = none →
            (parseMessage m).body = "")))
    ∧ (m.payload.parts = none →
        ∀ d, m.payload.bodyData = some d → (parseMessage m).body = decodeBase64 d)
    ∧ (m.payload.parts = none → m.payload.bodyData = none →
        (parseMessage m).body = "") := by
  refine ⟨fun hp hnp => ⟨fun q hq => ?_, fun hn => ?_⟩, fun hp d hd => ?_, fun hp hd => ?_⟩
  · simp [parseMessage, hp, hnp, hq]
  · simp [parseMessage, hp, hnp, hn]
  · by_cases hd0 : d = ""
    · subst hd0
      simp [parseMessage, hp, hd]
      decide
    · simp [parseMessage, hp, hd, hd0]
  · simp [parseMessage, hp, hd]

/-- Witness for C7: an html-only multipart message decodes the html part;
a single-part message decodes the top-level data; a message with neither
gets the empty body. -/
theorem c7_body_precedence_witness :
    (parseMessage ⟨"h", ⟨[], some [⟨"text/html", "SFRNTA=="⟩], none⟩⟩).body = decodeBase64 "SFRNTA=="
    ∧ (parseMessage ⟨"s", ⟨[], none, some "aGk="⟩⟩).body = decodeBase64 "aGk="
    ∧ (parseMessage ⟨"e", ⟨[], none, none⟩⟩).body = "" :=
  ⟨((c7_body_precedence ⟨"h", ⟨[], some [⟨"text/html", "SFRNTA=="⟩], none⟩⟩
        [⟨"text/html", "SFRNTA=="⟩]).1 rfl (by decide)).1 ⟨"text/html", "SFRNTA=="⟩ (by decide),
    (c7_body_precedence ⟨"s", ⟨[], none, some "aGk="⟩⟩ []).2.1 rfl "aGk=" rfl,
    (c7_body_precedence ⟨"e", ⟨[], none, none⟩⟩ []).2.2 rfl rfl⟩

/-- C4: with the credential absent, every one of the three tools returns
the identical "API Key not set." text result and issues no HTTP request. -/
theorem c4_missing_key (env : Env) (args : Option Args) (name : String)
    (hk : env.apiKey = none)
    (hn : name = "listEmails" ∨ name = "getEmailContent" ∨ name = "sendEmail") :
    dispatch env ⟨name, args⟩ = ⟨[textBlock "API Key not set."], []⟩ := by
  rcases hn with h | h | h <;> subst h <;>
    simp [dispatch, listEmailsHandler, getEmailContentHandler, sendEmailHandler, hk]

/-- Witness for C4: a concrete credential-less environment, sendEmail. -/
theorem c4_missing_key_witness :
    dispatch ⟨none, HttpResult.ok none, fun _ => HttpResult.fail none "", HttpResult.ok ()⟩
        ⟨"sendEmail", none⟩
      = ⟨[textBlock "API Key not set."], []⟩ :=
  c4_missing_key ⟨none, HttpResult.ok none, fun _ => HttpResult.fail none "", HttpResult.ok ()⟩
    none "sendEmail" rfl (Or.inr (Or.inr rfl))

/-- C2 (code bug): listEmails never parses its arguments against
ListEmailsSchema, so the declared defaults are not applied: with the
arguments omitted the handler requests `?maxResults=undefined` with no q
parameter, while the schema defaults would give `?q=in%3Ainbox&maxResults=3`. -/
theorem c2_defaults_not_applied :
    listEmailsQueryParam emptyArgs = "?maxResults=undefined"
    ∧ listEmailsQueryParam (applyListEmailsDefaults emptyArgs) = "?q=in%3Ainbox&maxResults=3"
    ∧ (dispatch ⟨some "k", HttpResult.ok none, fun _ => HttpResult.fail none "", HttpResult.ok ()⟩
        ⟨"listEmails", none⟩).requests
      = [Request.listMessages "?maxResults=undefined"]
    ∧ listEmailsQueryParam emptyArgs ≠ listEmailsQueryParam (applyListEmailsDefaults emptyArgs) :=
  ⟨by decide, by decide, by decide, by decide⟩

/-- C3 counterexample: on a listing of one id, index 0 produces the caught
TypeError text, not the "Email not found at the specified index." text the
claim requires for every i < 1. -/
theorem c3_counterexample :
    (dispatch ⟨some "k", HttpResult.ok (some ["a"]), fun _ => HttpResult.fail none "", HttpResult.ok ()⟩
        ⟨"getEmailContent", some (mkIndexArgs 0)⟩).content
      = [textBlock "Error: Cannot read properties of undefined (reading 'id')"]
    ∧ (dispatch ⟨some "k", HttpResult.ok (some ["a"]), fun _ => HttpResult.fail none "", HttpResult.ok ()⟩
        ⟨"getEmailContent", some (mkIndexArgs 0)⟩).content
      ≠ [textBlock "Email not found at the specified index."] :=
  ⟨by decide, by decide⟩

/-- C3 amended: on a listing of n ids, getEmailContent by index i returns
the NotFound text when i > n; when i < 1 it instead returns the
thrown-exception text of reading `.id` of undefined. -/
theorem c3_amended_index_errors (i : Int) (l : List String) (key : String)
    (fetch : String → HttpResult RawMessage) (sendR : HttpResult Unit) :
    ((l.length : Int) < i →
      (dispatch ⟨some key, HttpResult.ok (some l), fetch, sendR⟩
          ⟨"getEmailContent", some (mkIndexArgs i)⟩).content
        = [textBlock "Email not found at the specified index."])
    ∧ (i < 1 →
      (dispatch ⟨some key, HttpResult.ok (some l), fetch, sendR⟩
          ⟨"getEmailContent", some (mkIndexArgs i)⟩).content
        = [textBlock "Error: Cannot read properties of undefined (reading 'id')"]) := by
  constructor
  · intro h
    simp [dispatch, getEmailContentHandler, parseEmailIndex, mkIndexArgs, indexLookup, h]
  · intro h
    have h1 : ¬ ((l.length : Int) < i) := by omega
    have h2 : i - 1 < 0 := by omega
    simp [dispatch, getEmailContentHandler, parseEmailIndex, mkIndexArgs, indexLookup,
      listGetInt, h1, h2]

/-- Witness for C3 amended: listing of two ids, indices 3 and 0. -/
theorem c3_amended_index_errors_witness :
    (dispatch ⟨some "k", HttpResult.ok (some ["a", "b"]), fun _ => HttpResult.fail none "", HttpResult.ok ()⟩
        ⟨"getEmailContent", some (mkIndexArgs 3)⟩).content
      = [textBlock "Email not found at the specified index."]
    ∧ (dispatch ⟨some "k", HttpResult.ok (some ["a", "b"]), fun _ => HttpResult.fail none "", HttpResult.ok ()⟩
        ⟨"getEmailContent", some (mkIndexArgs 0)⟩).content
      = [textBlock "Error: Cannot read properties of undefined (reading 'id')"] :=
  ⟨(c3_amended_index_errors 3 ["a", "b"] "k" (fun _ => HttpResult.fail none "")
      (HttpResult.ok ())).1 (by decide),
    (c3_amended_index_errors 0 ["a", "b"] "k" (fun _ => HttpResult.fail none "")
      (HttpResult.ok ())).2 (by decide)⟩

/-- The replaced-away character never survives replaceChar. -/
theorem not_mem_replaceChar_self (c d : Char) (h : c ≠ d) (l : List Char) :
    c ∉ replaceChar c d l := by
  intro hm
  rcases List.mem_map.mp hm with ⟨x, _, hxe⟩
  by_cases hxc : x = c
  · rw [if_pos hxc] at hxe
    exact h hxe.symm
  · rw [if_neg hxc] at hxe
    exact hxc hxe

/-- replaceChar introduces only its replacement character. -/
theorem not_mem_replaceChar (x c d : Char) (l : List Char) (hl : x ∉ l) (hd : x ≠ d) :
    x ∉ replaceChar c d l := by
  intro hm
  rcases List.mem_map.mp hm with ⟨y, hy, hye⟩
  by_cases hyc : y = c
  · rw [if_pos hyc] at hye
    exact hd hye.symm
  · rw [if_neg hyc] at hye
    subst hye
    exact hl hy

/-- Stripping a trailing run introduces no character. -/
theorem not_mem_stripTrailing (x c : Char) (l : List Char) (h : x ∉ l) :
    x ∉ stripTrailing c l := by
  intro hm
  unfold stripTrailing at hm
  rw [List.mem_reverse] at hm
  have hsub := (List.dropWhile_sublist (l := l.reverse) (fun y => decide (y = c))).subset hm
  rw [List.mem_reverse] at hsub
  exact h hsub

/-- The head surviving dropWhile falsifies the predicate. -/
theorem head_dropWhile_false {α : Type} (p : α → Bool) (l : List α) (a : α)
    (h : (l.dropWhile p).head? = some a) : p a = false := by
  induction l with
  | nil => simp at h
  | cons b t ih =>
    rw [List.dropWhile_cons] at h
    split at h
    · exact ih h
    · next hb =>
      simp only [List.head?_cons, Option.some.injEq] at h
      subst h
      simp only [Bool.not_eq_true] at hb
      exact hb

/-- After stripTrailing, the stripped character is not last. -/
theorem getLast_stripTrailing (c : Char) (l : List Char) :
    (stripTrailing c l).getLast? ≠ some c := by
  intro h
  unfold stripTrailing at h
  rw [List.getLast?_reverse] at h
  have hf := head_dropWhile_false (fun x => decide (x = c)) l.reverse c h
  simp at hf

/-- C5: the raw string sendEmail POSTs is the base64url encoding of the
header block followed by the body; it contains no plus, no slash, and no
trailing padding; and a successful parse makes the handler POST exactly
that raw string. -/
theorem c5_raw_base64url (toAddr subject body : String) :
    buildRaw toAddr subject body = base64urlEncode (emailHeaders toAddr subject ++ body)
    ∧ '+' ∉ (buildRaw toAddr subject body).data
    ∧ '/' ∉ (buildRaw toAddr subject body).data
    ∧ (buildRaw toAddr subject body).data.getLast? ≠ some '='
    ∧ (∀ (key : String) (lr : HttpResult (Option (List String)))
        (fetch : String → HttpResult RawMessage) (sendR : HttpResult Unit),
        emailFormatOk toAddr = true →
        (dispatch ⟨some key, lr, fetch, sendR⟩
            ⟨"sendEmail", some (mkSendArgs toAddr none subject body)⟩).requests
          = [Request.sendMessage (buildRaw toAddr subject body)]) := by
  have hdata : (buildRaw toAddr subject body).data
      = stripTrailing '=' (replaceChar '/' '_' (replaceChar '+' '-'
          (encodeBase64 (strBytes (emailHeaders toAddr subject ++ body))))) := rfl
  refine ⟨rfl, ?_, ?_, ?_, ?_⟩
  · rw [hdata]
    exact not_mem_stripTrailing '+' '=' _
      (not_mem_replaceChar '+' '/' '_' _ (not_mem_replaceChar_self '+' '-' (by decide) _)
        (by decide))
  · rw [hdata]
    exact not_mem_stripTrailing '/' '=' _ (not_mem_replaceChar_self '/' '_' (by decide) _)
  · rw [hdata]
    exact getLast_stripTrailing '=' _
  · intro key lr fetch sendR hfmt
    cases sendR <;>
      simp [dispatch, sendEmailHandler, parseSendEmail, mkSendArgs, hfmt]

/-- Witness for C5: a concrete send whose parse succeeds. -/
theorem c5_raw_base64url_witness :
    (dispatch ⟨some "k", HttpResult.ok none, fun _ => HttpResult.fail none "", HttpResult.ok ()⟩
        ⟨"sendEmail", some (mkSendArgs "a@b.c" none "hello" "body")⟩).requests
      = [Request.sendMessage (buildRaw "a@b.c" "hello" "body")] :=
  (c5_raw_base64url "a@b.c" "hello" "body").2.2.2.2 "k" (HttpResult.ok none)
    (fun _ => HttpResult.fail none "") (HttpResult.ok ()) (by decide)

/-- C6 counterexample: the header block built for a send contains no Cc
line, the schema declares no cc field, and supplying a cc key changes
nothing about the POSTed raw message. -/
theorem c6_no_cc_counterexample :
    containsSub "Cc:".data (emailHeaders "a@b.c" "hello").data = false
    ∧ "cc" ∉ sendEmailSchemaKeys
    ∧ (dispatch ⟨some "k", HttpResult.ok none, fun _ => HttpResult.fail none "", HttpResult.ok ()⟩
        ⟨"sendEmail", some (mkSendArgs "a@b.c" (some "c@d.e") "hello" "body")⟩).requests
      = [Request.sendMessage (buildRaw "a@b.c" "hello" "body")] :=
  ⟨by decide, by decide, by decide⟩

/-- C6 amended: sendEmail's schema has exactly the fields to, subject and
body — no cc — and a supplied cc argument is ignored: the call's whole
observable outcome equals that of the same call without cc. -/
theorem c6_cc_ignored (toAddr ccv subject body : String) (key : String)
    (lr : HttpResult (Option (List String))) (fetch : String → HttpResult RawMessage)
    (sendR : HttpResult Unit) :
    dispatch ⟨some key, lr, fetch, sendR⟩
        ⟨"sendEmail", some (mkSendArgs toAddr (some ccv) subject body)⟩
      = dispatch ⟨some key, lr, fetch, sendR⟩
        ⟨"sendEmail", some (mkSendArgs toAddr none subject body)⟩
    ∧ sendEmailSchemaKeys = ["to", "subject", "body"] :=
  ⟨rfl, rfl⟩

/-- A failing fetch somewhere in the listing makes the loop return an error. -/
theorem fetchLoop_error_exists (fr : String → HttpResult RawMessage) (ids : List String)
    (h : ∃ id ∈ ids, (fr id).isFailB = true) :
    ∃ e, fetchLoop fr ids = Except.error e := by
  induction ids with
  | nil => simp at h
  | cons a rest ih =>
    cases hfa : fr a with
    | fail em st => exact ⟨jsOr em st, by simp [fetchLoop, hfa]⟩
    | ok m =>
      have hr : ∃ id ∈ rest, (fr id).isFailB = true := by
        rcases h with ⟨id, hm, hf⟩
        rcases List.mem_cons.mp hm with rfl | hmem
        · rw [hfa] at hf
          simp [HttpResult.isFailB] at hf
        · exact ⟨id, hmem, hf⟩
      rcases ih hr with ⟨e, he⟩
      exact ⟨e, by simp [fetchLoop, hfa, he]⟩

/-- C9: if fetching any id of the listing fails, listEmails returns only
the single error text — every normalized email already produced for
earlier ids is discarded. -/
theorem c9_fetch_failure_discards (key : String) (ids : List String)
    (fetch : String → HttpResult RawMessage) (sendR : HttpResult Unit) (args : Option Args)
    (h : ∃ id ∈ ids, (fetch id).isFailB = true) :
    ∃ e, (dispatch ⟨some key, HttpResult.ok (some ids), fetch, sendR⟩
        ⟨"listEmails", args⟩).content = [textBlock ("Error: " ++ e)] := by
  rcases fetchLoop_error_exists fetch ids h with ⟨e, he⟩
  exact ⟨e, by simp [dispatch, listEmailsHandler, he]⟩

/-- Witness for C9: the second of two fetches fails; the first id's email
is not part of the result. -/
theorem c9_fetch_failure_discards_witness :
    ∃ e, (dispatch ⟨some "k", HttpResult.ok (some ["a", "b"]),
        (fun id => if id = "b" then HttpResult.fail (some "boom") "500" else HttpResult.ok sampleRaw),
        HttpResult.ok ()⟩ ⟨"listEmails", none⟩).content = [textBlock ("Error: " ++ e)] :=
  c9_fetch_failure_discards "k" ["a", "b"]
    (fun id => if id = "b" then HttpResult.fail (some "boom") "500" else HttpResult.ok sampleRaw)
    (HttpResult.ok ()) none ⟨"b", by decide, by decide⟩

/-- Every listEmails outcome is one text block. -/
theorem listEmailsHandler_shape (env : Env) (a : Option Args) :
    ∃ s, (listEmailsHandler env a).content = [ContentBlock.mk "text" s] := by
  unfold listEmailsHandler
  cases hk : env.apiKey
  · exact ⟨_, rfl⟩
  · cases hl : env.listResult with
    | fail em st => exact ⟨_, rfl⟩
    | ok msgs =>
      cases msgs with
      | none => exact ⟨_, rfl⟩
      | some ids =>
        cases hf : fetchLoop env.fetchResult ids with
        | error e => exact ⟨"Error: " ++ e, by simp [hf, textBlock]⟩
        | ok es => exact ⟨jsonStringifyEmails es, by simp [hf, textBlock]⟩

/-- Every getEmailContent outcome is one text block. -/
theorem getEmailContentHandler_shape (env : Env) (a : Option Args) :
    ∃ s, (getEmailContentHandler env a).content = [ContentBlock.mk "text" s] := by
  unfold getEmailContentHandler
  cases hk : env.apiKey
  · exact ⟨_, rfl⟩
  · cases hp : parseEmailIndex a with
    | error e => exact ⟨_, rfl⟩
    | ok i =>
      cases hl : env.listResult with
      | fail em st => exact ⟨_, rfl⟩
      | ok msgs =>
        cases hx : indexLookup msgs i with
        | notFound => exact ⟨"Email not found at the specified index.", by simp [hx, textBlock]⟩
        | jsError e => exact ⟨"Error: " ++ e, by simp [hx, textBlock]⟩
        | found id =>
          cases hfe : env.fetchResult id with
          | fail em st => exact ⟨"Error: " ++ jsOr em st, by simp [hx, hfe, textBlock]⟩
          | ok m => exact ⟨jsonStringifyEmail (parseMessage m), by simp [hx, hfe, textBlock]⟩

/-- Every sendEmail outcome is one text block. -/
theorem sendEmailHandler_shape (env : Env) (a : Option Args) :
    ∃ s, (sendEmailHandler env a).content = [ContentBlock.mk "text" s] := by
  unfold sendEmailHandler
  cases hk : env.apiKey
  · exact ⟨_, rfl⟩
  · cases hp : parseSendEmail a with
    | error e => exact ⟨_, rfl⟩
    | ok t =>
      rcases t with ⟨toAddr, subject, body⟩
      cases hs : env.sendResult with
      | fail em st => exact ⟨"Error: " ++ jsOr em st, by simp [hs, textBlock]⟩
      | ok u => exact ⟨"Email sent successfully.", by simp [hs, textBlock]⟩

/-- C10: every dispatcher result, on every path — success, configuration
error, remote error, not-found, thrown exception, unknown tool — is a
content sequence of exactly one block of type "text". -/
theorem c10_single_text_block (env : Env) (req : ToolCallRequest) :
    ∃ s, (dispatch env req).content = [ContentBlock.mk "text" s] := by
  unfold dispatch
  split
  · exact listEmailsHandler_shape env req.arguments
  · split
    · exact getEmailContentHandler_shape env req.arguments
    · split
      · exact sendEmailHandler_shape env req.arguments
      · exact ⟨_, rfl⟩

end GmailMcp

